import Mathlib

/-!
Verification of core behaviours of the dagrunner DAG execution engine
(Met Office), via a shallow embedding of the relevant Python functions:

* `dagrunner/plugin_framework.py` — control-token sentinels (`_EventBase`,
  `_SkipEvent`, `_IgnoreEvent`) and their `__repr__`/`__reduce__` methods,
  together with the `Singleton` metaclass from `dagrunner/utils/__init__.py`.
* `dagrunner/execute_graph.py` — `plugin_executor` (token semantics, call
  descriptor unpacking, common-keyword-argument merging) and
  `ExecuteGraph.__init__` (scheduler selection).
* `dagrunner/runner/__init__.py` — `_handle_clobber` (cache/skip filter).
* `dagrunner/runner/schedulers/dask.py` — `add_dummy_tasks`.
* `dagrunner/runner/schedulers/asyncmp.py` — `_insert_results`.
* `dagrunner/runner/schedulers/__init__.py` — the `SCHEDULERS` lookup.

Python dictionaries are modelled as association lists with first-match
lookup; Python dict union `a | b` (right side wins on key collision) is
modelled at lookup level by `b ++ a`.  Object identity of the event
sentinels is modelled by an explicit object-id field.
-/

namespace Dagrunner

/-! ## Control-token sentinels: repr (plugin_framework.py lines 20-27) -/

/-- Python class name of the skip-event sentinel class `_SkipEvent`. -/
def skipClassName : String := "_SkipEvent"

/-- Python class name of the ignore-event sentinel class `_IgnoreEvent`. -/
def ignoreClassName : String := "_IgnoreEvent"

/-- Python `str.upper()` on an ASCII class name: upper-case each character. -/
def pyUpper (s : String) : String := ⟨s.data.map Char.toUpper⟩

/-- `_EventBase.__repr__`: returns `self.__class__.__name__.upper()`. -/
def eventRepr (className : String) : String := pyUpper className

/-! ## Singleton metaclass and pickle round-trip (utils lines 101-111,
plugin_framework lines 29-55) -/

/-- The two classes built on the event machinery (`_SkipEvent`, `_IgnoreEvent`). -/
inductive EventClass where
  | skipEvent
  | ignoreEvent
deriving DecidableEq

/-- A Python instance of an event class: its class plus its object identity
(`id(obj)`); two values are the same Python object iff they are equal. -/
structure PyObj where
  cls : EventClass
  oid : Nat
deriving DecidableEq

/-- Interpreter-process state relevant to the sentinels: the
`Singleton._instances` registry and a fresh-object-id counter. -/
structure ProcState where
  instances : List (EventClass × PyObj)
  nextId : Nat
deriving DecidableEq

/-- `Singleton.__call__` (utils/__init__.py): if the class already has a
registered instance return it, otherwise construct a fresh instance and
register it. -/
def singletonCall (c : EventClass) (s : ProcState) : PyObj × ProcState :=
  match s.instances.lookup c with
  | some obj => (obj, s)
  | none =>
      let obj : PyObj := ⟨c, s.nextId⟩
      (obj, ⟨(c, obj) :: s.instances, s.nextId + 1⟩)

/-- `_EventBase.__reduce__`: the pickle payload is `(self.__class__, ())`,
i.e. exactly the class tag. -/
def pickleReduce (obj : PyObj) : EventClass := obj.cls

/-- Unpickling a reduced event: pickle calls the class with no arguments,
which goes through `Singleton.__call__` in the receiving process. -/
def pickleLoad (tag : EventClass) (s : ProcState) : PyObj × ProcState :=
  singletonCall tag s

/-- Module import of `plugin_framework.py`: `SKIP_EVENT = _SkipEvent()` and
`IGNORE_EVENT = _IgnoreEvent()` run once, registering both singletons. -/
def moduleInit (s : ProcState) : ProcState :=
  (singletonCall .ignoreEvent (singletonCall .skipEvent s).2).2

/-- State of a process that has just imported the module. -/
def freshProcess : ProcState := moduleInit ⟨[], 0⟩

/-- The process-wide `SKIP_EVENT` singleton of a process state. -/
def skipSingleton (s : ProcState) : PyObj := (singletonCall .skipEvent s).1

/-- The process-wide `IGNORE_EVENT` singleton of a process state. -/
def ignoreSingleton (s : ProcState) : PyObj := (singletonCall .ignoreEvent s).1

/-! ## Scheduler selection (runner/schedulers/__init__.py lines 23-30,
execute_graph.py ExecuteGraph.__init__ lines 328-338) -/

/-- The scheduler objects the `SCHEDULERS` lookup can produce.
`singleMachine v` stands for `partial(dask.SingleMachine, scheduler=v)`. -/
inductive SchedSpec where
  | distributed
  | singleMachine (variant : String)
  | asyncMP
  | daskOnRay
deriving DecidableEq

/-- The `SCHEDULERS` name-to-scheduler lookup. -/
def SCHEDULERS : List (String × SchedSpec) :=
  [(("distributed"), .distributed),
   (("threads"), .singleMachine ("threads")),
   (("processes"), .singleMachine ("processes")),
   (("single-threaded"), .singleMachine ("single-threaded")),
   (("multiprocessing"), .asyncMP),
   (("ray"), .daskOnRay)]

/-- `ExecuteGraph.__init__` scheduler selection: reject unrecognised names,
then, if `dry_run`, replace the requested name by `single-threaded` before
the lookup. -/
def selectScheduler (name : String) (dryRun : Bool) : Except String SchedSpec :=
  if (SCHEDULERS.lookup name).isNone then
    .error ("scheduler not recognised")
  else
    let name' := if dryRun then ("single-threaded") else name
    match SCHEDULERS.lookup name' with
    | some s => .ok s
    | none => .error ("scheduler not recognised")

/-! ## Common-keyword-argument merging (execute_graph.py lines 29-41 and
182-184) -/

/-- A Python keyword-argument dictionary, as an association list with
first-match lookup. -/
abbrev KwDict (V : Type) := List (String × V)

/-- Dictionary lookup (`d[k]` / `d.get(k)`). -/
def dget {V : Type} (d : KwDict V) (k : String) : Option V := d.lookup k

/-- Python dict union `a | b`: on key collision the right side wins.
Modelled at lookup level by putting `b` first (first match wins in
`List.lookup`). -/
def dunion {V : Type} (a b : KwDict V) : KwDict V := b ++ a

/-- `_get_common_args_matching_signature(callable_obj, common_kwargs, keys)`:
the subset of `common_kwargs` whose key is a parameter of the callable's
signature or is listed in `keys`. -/
def getCommonArgsMatchingSignature {V : Type} (sigParams : List String)
    (commonKwargs : KwDict V) (keys : List String) : KwDict V :=
  commonKwargs.filter (fun kv => sigParams.contains kv.1 || keys.contains kv.1)

/-- `plugin_executor` lines 182-184: `callable_kwargs = callable_kwargs |
_get_common_args_matching_signature(callable_obj, common_kwargs,
callable_kwargs.keys())` — the keyword arguments the plugin is finally
invoked with. -/
def mergedCallKwargs {V : Type} (sigParams : List String)
    (callableKwargs commonKwargs : KwDict V) : KwDict V :=
  dunion callableKwargs
    (getCommonArgsMatchingSignature sigParams commonKwargs
      (callableKwargs.map Prod.fst))

/-! ## Control-token semantics of plugin_executor
(execute_graph.py lines 94-117) -/

/-- A positional input to `plugin_executor`: Python `None`, the `SKIP_EVENT`
sentinel, the `IGNORE_EVENT` sentinel, or an ordinary value. -/
inductive PInput (α : Type) where
  | pyNone
  | skipEv
  | ignoreEv
  | val (a : α)
deriving DecidableEq

/-- Identity test against Python `None` (`x is None`). -/
def isNoneInput {α : Type} : PInput α → Bool
  | .pyNone => true
  | _ => false

/-- Identity test against `IGNORE_EVENT` (`x is IGNORE_EVENT`). -/
def isIgnoreInput {α : Type} : PInput α → Bool
  | .ignoreEv => true
  | _ => false

/-- Identity test against `SKIP_EVENT` (`SKIP_EVENT in args` — membership by
default object equality, which is identity for the sentinels). -/
def isSkipInput {α : Type} : PInput α → Bool
  | .skipEv => true
  | _ => false

/-- Outcome of the token-handling phase of `plugin_executor`: return
`IGNORE_EVENT` without invoking, return `SKIP_EVENT` without invoking, or
proceed to invoke the plugin on the filtered positional arguments. -/
inductive ExecOutcome (α : Type) where
  | retIgnore
  | retSkip
  | invokeWith (args : List (PInput α))
deriving DecidableEq

/-- `plugin_executor` lines 94-117 in order: filter out `None` inputs; if
more than one argument remains and all are `IGNORE_EVENT`, return
`IGNORE_EVENT`; filter out `IGNORE_EVENT` inputs; if `SKIP_EVENT` is among
the remaining arguments, return `SKIP_EVENT`; otherwise invoke the plugin
on the remaining arguments. -/
def tokenPhase {α : Type} (argsIn : List (PInput α)) : ExecOutcome α :=
  let args := argsIn.filter (fun x => !(isNoneInput x))
  if 1 < args.length ∧ args.all isIgnoreInput = true then
    .retIgnore
  else
    let args2 := args.filter (fun x => !(isIgnoreInput x))
    if args2.any isSkipInput = true then
      .retSkip
    else
      .invokeWith args2

/-! ## Call-descriptor tuple unpacking (execute_graph.py lines 119 and
128-157) -/

/-- The builtin Python exceptions this part of `plugin_executor` can raise,
plus the `InitArityError` kind the specification names (which the code
never produces — no such class exists in the repository). -/
inductive PyError where
  | indexError (msg : String)
  | valueError (msg : String)
  | initArityError (msg : String)
deriving DecidableEq

/-- The arity-failure message
`expecting <kinds> values to unpack for <unit>, got <got>` (the trailing
`node_properties` dump of the source message is elided). -/
def arityMsg (kinds unitName : String) (got : Nat) : String :=
  ("expecting ") ++ kinds ++ (" values to unpack for ") ++ unitName
    ++ (", got ") ++ toString got

/-- Call-descriptor validation of `plugin_executor`: line 119
(`callable_obj = call[0]`, which raises `IndexError` on an empty
descriptor) followed by the unpack section, lines 128-157.  `isType` is
`isinstance(callable_obj, type)`: a constructible plugin class accepts
descriptor lengths 1, 2 and 3; a plain invocable accepts lengths 1 and 2;
anything else raises `ValueError`.  On success the plugin invocation
proceeds; on error it never happens. -/
def unpackDescriptor (unitName : String) (isType : Bool) (callLen : Nat) :
    Except PyError Unit :=
  if callLen = 0 then
    .error (.indexError ("list index out of range"))
  else if isType then
    if callLen = 3 ∨ callLen = 2 ∨ callLen = 1 then .ok ()
    else .error (.valueError (arityMsg ("1, 2 or 3") unitName callLen))
  else
    if callLen = 2 ∨ callLen = 1 then .ok ()
    else .error (.valueError (arityMsg ("1 or 2") unitName callLen))

/-! ## Worker-pool argument substitution
(runner/schedulers/asyncmp.py lines 13-22) -/

/-- A Python value appearing as a positional argument in a submitted task.
`strA`/`intA` are hashable non-iterables (looked up in the result map);
`dictA` is excluded from the iterable branch (`isinstance(args, dict)`) and
is unhashable, so `result_lookup.get` raises `TypeError` on it; `listA` and
`tupleA` are the recursed-into iterables. -/
inductive PyArg where
  | strA (s : String)
  | intA (n : Int)
  | dictA (id : Nat)
  | listA (xs : List PyArg)
  | tupleA (xs : List PyArg)

/-- `_insert_results(args, result_lookup)`: iterables other than
`str`/`bytes`/`dict` are substituted element-wise (producing a Python
list); for the rest, `result_lookup.get(args, args)` returns the stored
result when `args` is a key, `args` itself when absent, and `args`
unchanged when unhashable (`TypeError`).  The result map is modelled as the
partial lookup function of the scheduler's `data_map` (whose keys are
hashable by construction). -/
def insertResults (m : PyArg → Option PyArg) : PyArg → PyArg
  | .listA xs => .listA (xs.attach.map (fun x => insertResults m x.1))
  | .tupleA xs => .listA (xs.attach.map (fun x => insertResults m x.1))
  | .dictA d => .dictA d
  | .strA s => ((m (.strA s)).getD (.strA s))
  | .intA n => ((m (.intA n)).getD (.intA n))
decreasing_by
  all_goals
    have h := List.sizeOf_lt_of_mem x.2
    simp_all
    omega

/-! ## Cache/skip filter (runner/__init__.py `_handle_clobber`,
lines 12-91) -/

/-- What `_handle_clobber` consults about one graph node: its positional
argument node ids (`graph[node][2]`, mapped to node ids) and the mtime of
its cache artifact (`None` when `os.path.isfile` is false). -/
structure ClobberNode where
  preds : List Nat
  mtime : Option Nat
deriving DecidableEq

/-- The graph handed to `_handle_clobber`, keyed by node id. -/
abbrev ClobberGraph := List (Nat × ClobberNode)

/-- Predecessor node ids of `k` (`get_node_args_id`). -/
def clobberPreds (g : ClobberGraph) (k : Nat) : List Nat :=
  match g.lookup k with
  | some nd => nd.preds
  | none => []

/-- Cache artifact mtime of `k`; `none` when the artifact file is missing. -/
def clobberMtime (g : ClobberGraph) (k : Nat) : Option Nat :=
  match g.lookup k with
  | some nd => nd.mtime
  | none => none

/-- Successors of `k` (`succ_deps[k]` from `dask.core.get_deps`). -/
def clobberSuccs (g : ClobberGraph) (k : Nat) : List Nat :=
  (g.filter (fun kv => kv.2.preds.contains k)).map Prod.fst

/-- Python dict assignment `m[k] = b` (overwrite in place, else append). -/
def markSet (m : List (Nat × Bool)) (k : Nat) (b : Bool) : List (Nat × Bool) :=
  if m.any (fun kv => kv.1 == k) then
    m.map (fun kv => if kv.1 == k then (k, b) else kv)
  else m ++ [(k, b)]

/-- One predecessor's contribution to `skip_key`: skipping stays allowed
unless the argument's artifact exists and is strictly newer than the
node's (`os.path.isfile(arg_path) and os.path.getmtime(arg_path) >
out_modtime`). -/
def argNotNewer (argMtime : Option Nat) (out : Nat) : Bool :=
  match argMtime with
  | none => true
  | some ta => !(out < ta)

/-- `mark_recursively_false(node)`: mark the node `False` then recurse on
every successor.  The fuel argument bounds the recursion depth; the Python
original recurses without bound and terminates on acyclic graphs. -/
def markRecFalse (g : ClobberGraph) : Nat → List (Nat × Bool) → Nat → List (Nat × Bool)
  | 0, m, _ => m
  | fuel + 1, m, k =>
      (clobberSuccs g k).foldl (fun m' s => markRecFalse g fuel m' s)
        (markSet m k false)

/-- `recursive_node_removal(node)`: if the node was already marked `False`,
re-run `mark_recursively_false` and stop.  Otherwise, only when the node's
artifact exists: if no predecessor artifact is newer, mark the node for
skipping and recurse on its successors, else mark it and all transitive
successors `False`.  When the node's artifact is missing, nothing at all is
marked — in particular the successors are NOT marked `False`. -/
def recNodeRemoval (g : ClobberGraph) : Nat → List (Nat × Bool) → Nat → List (Nat × Bool)
  | 0, m, _ => m
  | fuel + 1, m, k =>
    if m.lookup k = some false then markRecFalse g fuel m k
    else
      match clobberMtime g k with
      | none => m
      | some out =>
        if (clobberPreds g k).all (fun a => argNotNewer (clobberMtime g a) out) then
          (clobberSuccs g k).foldl (fun m' s => recNodeRemoval g fuel m' s)
            (markSet m k true)
        else markRecFalse g fuel m k

/-- The `mark_removal` map after looping `recursive_node_removal` over the
starting nodes (nodes with no predecessors). -/
def clobberMarks (g : ClobberGraph) (fuel : Nat) : List (Nat × Bool) :=
  ((g.filter (fun kv => kv.2.preds.isEmpty)).map Prod.fst).foldl
    (fun m s => recNodeRemoval g fuel m s) []

/-- The node ids popped from the graph (skipped) by `_handle_clobber`. -/
def clobberRemoved (g : ClobberGraph) (fuel : Nat) : List Nat :=
  ((clobberMarks g fuel).filter (fun kv => kv.2)).map Prod.fst

/-- The failing input for C2: a fan-in `0 → 2 ← 1` where node 0's artifact
(mtime 5) and node 2's artifact (mtime 10) exist and node 1's artifact is
missing. -/
def clobberBugGraph : ClobberGraph :=
  [(0, ⟨[], some 5⟩), (1, ⟨[], none⟩), (2, ⟨[0, 1], some 10⟩)]

/-! ## Dummy-sink injection (runner/schedulers/dask.py `add_dummy_tasks`,
lines 34-77) -/

/-- A task value of the input dask graph: an opaque payload id (two task
values are equal iff `dask.base.tokenize` gives them the same token) plus
the graph keys its arguments reference. -/
structure InTask where
  pid : Nat
  deps : List Nat
deriving DecidableEq

/-- The input dask graph, keyed by (tokenized) node keys. -/
abbrev InGraph := List (Nat × InTask)

/-- Keys of the graph after dummy-task injection.  `waiterSink v` models
`"waiter-" + tokenize(v)` for a terminal task of value `v`; `waiterGlobal
vs` models `"waiter-" + tokenize((no_op, *keys))` for the global waiter
over the sink keys determined by `vs`.  Tokenization is deterministic, so
two equal values give the same key. -/
inductive OutKey where
  | base (k : Nat)
  | waiterSink (v : InTask)
  | waiterGlobal (vs : List InTask)
deriving DecidableEq

/-- Task values of the graph after dummy-task injection: an original task,
a per-branch no-op sink `(no_op, t)`, or the global no-op over all sink
keys. -/
inductive OutVal where
  | orig (v : InTask)
  | sinkTask (t : Nat)
  | globalTask (vs : List InTask)
deriving DecidableEq

/-- Successor keys of `k` in the input graph (from `get_deps`). -/
def inSuccs (g : InGraph) (k : Nat) : List Nat :=
  (g.filter (fun kv => kv.2.deps.contains k)).map Prod.fst

/-- The entries of the graph with no successor (termination nodes). -/
def terminalEntries (g : InGraph) : InGraph :=
  g.filter (fun kv => (inSuccs g kv.1).isEmpty)

/-- Python dict assignment `d[k] = v` on the output graph. -/
def odInsert (d : List (OutKey × OutVal)) (k : OutKey) (v : OutVal) :
    List (OutKey × OutVal) :=
  if d.any (fun kv => kv.1 == k) then
    d.map (fun kv => if kv.1 == k then (k, v) else kv)
  else d ++ [(k, v)]

/-- The `no_op_tasks` dict comprehension: one entry
`waiter-tokenize(value) ↦ (no_op, t)` per terminal task `t`; equal terminal
values collide on the same key (later entries overwrite). -/
def noOpTasks (g : InGraph) : List (OutKey × OutVal) :=
  (terminalEntries g).foldl
    (fun d kv => odInsert d (OutKey.waiterSink kv.2) (OutVal.sinkTask kv.1)) []

/-- The self-reference check: some key appears among its own successors. -/
def hasSelfRef (g : InGraph) : Bool :=
  g.any (fun kv => kv.2.deps.contains kv.1)

/-- `dask_graph.update(no_op_tasks)`: the input graph (with its keys and
values injected into the output key/value types) updated with the
per-branch sinks. -/
def dummySinkUpdate (g : InGraph) : List (OutKey × OutVal) :=
  (noOpTasks g).foldl (fun d kv => odInsert d kv.1 kv.2)
    (g.map (fun kv => (OutKey.base kv.1, OutVal.orig kv.2)))

/-- The sink task values determining the global waiter's key and arguments
(`(no_op, *no_op_tasks)` collects the sink keys, each of which is
determined by a terminal task value). -/
def globalVs (g : InGraph) : List InTask :=
  (noOpTasks g).filterMap (fun kv =>
    match kv.1 with
    | OutKey.waiterSink v => some v
    | _ => none)

/-- `add_dummy_tasks`: build the per-branch no-op sinks, reject
self-references, update the graph with the sinks, then either designate the
single sink as target or add a global no-op task over all sink keys and
designate it.  Returns the updated graph and the target key. -/
def addDummyTasks (g : InGraph) :
    Except String (List (OutKey × OutVal) × OutKey) :=
  if hasSelfRef g then .error ("Self referencing dependency")
  else
    match noOpTasks g with
    | [kv] => .ok (dummySinkUpdate g, kv.1)
    | _ =>
      .ok (odInsert (dummySinkUpdate g) (OutKey.waiterGlobal (globalVs g))
            (OutVal.globalTask (globalVs g)),
        OutKey.waiterGlobal (globalVs g))

/-- Raw key references of an output task value (its dependencies, in the
sense of `get_deps` over the updated graph). -/
def outDeps : OutVal → List OutKey
  | .orig v => v.deps.map OutKey.base
  | .sinkTask t => [OutKey.base t]
  | .globalTask vs => vs.map OutKey.waiterSink

/-- Successor keys of `k` in the output graph. -/
def outSuccs (out : List (OutKey × OutVal)) (k : OutKey) : List OutKey :=
  (out.filter (fun kv => (outDeps kv.2).contains k)).map Prod.fst

/-! # Theorems -/

/-- C7 (counterexample): on the empty task plan there is no task without a
successor, hence no per-branch sink, yet `add_dummy_tasks` still adds the
global no-op task — the claim's "one additional global no-op exactly when
there is more than one such sink" fails. -/
theorem add_dummy_tasks_counterexample :
    noOpTasks [] = [] ∧
    addDummyTasks []
      = Except.ok ([(OutKey.waiterGlobal [], OutVal.globalTask [])],
          OutKey.waiterGlobal []) := by
  refine ⟨rfl, rfl⟩

/-- C2 (code bug): on `clobberBugGraph`, node 1 is found not skippable (its
artifact is missing) and is kept, yet its successor node 2 is skipped:
`_handle_clobber` removes nodes 0 and 2 while keeping node 1, so a
descendant of a non-skipped task is skipped.  This contradicts the
function's own docstring ("else: do not skip / Mark all node successor
dependencies as 'do not skip'") and the claim. -/
theorem cache_skip_descendant_violation :
    clobberRemoved clobberBugGraph 9 = [0, 2] ∧
    1 ∉ clobberRemoved clobberBugGraph 9 ∧
    1 ∈ clobberPreds clobberBugGraph 2 ∧
    clobberMtime clobberBugGraph 1 = none := by
  refine ⟨by decide, by decide, by decide, by decide⟩

/-- Helper: the null-then-IGNORE filtered argument list of `tokenPhase`. -/
def filteredArgs {α : Type} (argsIn : List (PInput α)) : List (PInput α) :=
  (argsIn.filter (fun x => !(isNoneInput x))).filter (fun x => !(isIgnoreInput x))

/-- C3: if the SKIP sentinel is among the inputs remaining after null and
IGNORE filtering, the plugin is not invoked and `plugin_executor` returns
SKIP.  (The IGNORE filtering happens before the SKIP membership test: the
test is over the IGNORE-filtered list.) -/
theorem skip_short_circuits {α : Type} (argsIn : List (PInput α))
    (hskip : PInput.skipEv ∈ filteredArgs argsIn) :
    tokenPhase argsIn = ExecOutcome.retSkip := by
  unfold tokenPhase
  unfold filteredArgs at hskip
  have hany : ((argsIn.filter (fun x => !(isNoneInput x))).filter
      (fun x => !(isIgnoreInput x))).any isSkipInput = true :=
    List.any_eq_true.mpr ⟨PInput.skipEv, hskip, rfl⟩
  have hnotall : ¬(1 < (argsIn.filter (fun x => !(isNoneInput x))).length ∧
      (argsIn.filter (fun x => !(isNoneInput x))).all isIgnoreInput = true) := by
    rintro ⟨-, hall⟩
    have hmem := List.mem_of_mem_filter hskip
    have := List.all_eq_true.mp hall _ hmem
    simp [isIgnoreInput] at this
  rw [if_neg hnotall, if_pos hany]

/-- C3 (witness): `[val 1, IGNORE, SKIP]` yields SKIP without invocation. -/
theorem skip_short_circuits_witness :
    tokenPhase [PInput.val 1, PInput.ignoreEv, (PInput.skipEv : PInput Nat)]
      = ExecOutcome.retSkip :=
  skip_short_circuits [PInput.val 1, PInput.ignoreEv, PInput.skipEv] (by decide)

/-- C4: after null filtering, (a) `plugin_executor` returns IGNORE without
invoking the plugin exactly when at least two inputs remain and all of them
are IGNORE, and (b) whenever the plugin is invoked, it is invoked on the
IGNORE-filtered argument list, which contains no IGNORE input. -/
theorem ignore_filtering {α : Type} (argsIn : List (PInput α)) :
    (tokenPhase argsIn = ExecOutcome.retIgnore ↔
      (2 ≤ (argsIn.filter (fun x => !(isNoneInput x))).length ∧
        ∀ x ∈ argsIn.filter (fun x => !(isNoneInput x)), x = PInput.ignoreEv)) ∧
    (∀ l, tokenPhase argsIn = ExecOutcome.invokeWith l →
      l = filteredArgs argsIn ∧ PInput.ignoreEv ∉ l) := by
  have hiff : ∀ x : PInput α, isIgnoreInput x = true ↔ x = PInput.ignoreEv := by
    intro x; cases x <;> simp [isIgnoreInput]
  constructor
  · unfold tokenPhase
    by_cases hc : 1 < (argsIn.filter (fun x => !(isNoneInput x))).length ∧
        (argsIn.filter (fun x => !(isNoneInput x))).all isIgnoreInput = true
    · rw [if_pos hc]
      simp only [true_iff]
      refine ⟨hc.1, fun x hx => (hiff x).mp (List.all_eq_true.mp hc.2 x hx)⟩
    · rw [if_neg hc]
      constructor
      · intro h
        by_cases hs : ((argsIn.filter (fun x => !(isNoneInput x))).filter
            (fun x => !(isIgnoreInput x))).any isSkipInput = true
        · rw [if_pos hs] at h; exact absurd h (by simp)
        · rw [if_neg hs] at h; exact absurd h (by simp)
      · rintro ⟨hlen, hall⟩
        exact absurd ⟨hlen, List.all_eq_true.mpr
          (fun x hx => (hiff x).mpr (hall x hx))⟩ hc
  · intro l hl
    unfold tokenPhase at hl
    by_cases hc : 1 < (argsIn.filter (fun x => !(isNoneInput x))).length ∧
        (argsIn.filter (fun x => !(isNoneInput x))).all isIgnoreInput = true
    · rw [if_pos hc] at hl; exact absurd hl (by simp)
    · rw [if_neg hc] at hl
      by_cases hs : ((argsIn.filter (fun x => !(isNoneInput x))).filter
          (fun x => !(isIgnoreInput x))).any isSkipInput = true
      · rw [if_pos hs] at hl; exact absurd hl (by simp)
      · rw [if_neg hs] at hl
        have hleq : l = filteredArgs argsIn := by
          unfold filteredArgs
          exact (ExecOutcome.invokeWith.injEq .. ▸ hl.symm)
        refine ⟨hleq, ?_⟩
        subst hleq
        intro hmem
        have := List.of_mem_filter hmem
        simp [isIgnoreInput] at this

/-- C4 (witness): two IGNORE inputs yield the IGNORE outcome. -/
theorem ignore_filtering_witness :
    tokenPhase [(PInput.ignoreEv : PInput Nat), PInput.ignoreEv]
      = ExecOutcome.retIgnore :=
  (ignore_filtering [(PInput.ignoreEv : PInput Nat), PInput.ignoreEv]).1.mpr
    ⟨by decide, by decide⟩

/-- Helper: filtering an association list by a predicate on keys that holds
at `k` does not change the lookup at `k`. -/
theorem lookup_filter_key {V : Type} (p : String → Bool) (l : KwDict V)
    (k : String) (hp : p k = true) :
    (l.filter (fun kv => p kv.1)).lookup k = l.lookup k := by
  induction l with
  | nil => simp
  | cons hd tl ih =>
    by_cases hk : k = hd.1
    · subst hk
      simp [List.filter, hp, List.lookup]
    · have hbeq : (k == hd.1) = false := beq_false_of_ne hk
      cases hph : p hd.1 with
      | true => simp [List.filter, hph, List.lookup, hbeq, ih]
      | false => simp [List.filter, hph, List.lookup, hbeq, ih]

/-- Helper: lookup in an appended association list tries the left part
first. -/
theorem lookup_append {V : Type} (a b : KwDict V) (k : String) :
    (a ++ b).lookup k = (a.lookup k).orElse (fun _ => b.lookup k) := by
  induction a with
  | nil => simp [Option.orElse]
  | cons hd tl ih =>
    cases hbeq : k == hd.1 with
    | true => simp [List.lookup, hbeq, Option.orElse]
    | false => simp [List.lookup, hbeq, ih]

/-- C1 (counterexample): with signature `[k]`, descriptor call params
`k = 2` and common params `k = 1`, the plugin observes `1` — the common
value — whereas the claim states the descriptor-pinned `2` wins. -/
theorem common_kwargs_pinned_loses :
    dget (mergedCallKwargs [("k")] [(("k"), 2)] [(("k"), 1)]) ("k") = some 1 ∧
    some 1 ≠ (some 2 : Option Nat) := by
  refine ⟨by decide, by decide⟩

/-- C1 (amended): for a Unit declaring parameter `k` in its signature, if
`commonParams[k]` exists then the Unit observes `commonParams[k]` — both
when `callParams[k]` is absent and when it is present (the common value
overrides the descriptor-pinned one). -/
theorem common_kwargs_override {V : Type} (sigParams : List String)
    (callableKwargs commonKwargs : KwDict V) (k : String) (v : V)
    (hsig : k ∈ sigParams) (hcommon : dget commonKwargs k = some v) :
    dget (mergedCallKwargs sigParams callableKwargs commonKwargs) k = some v := by
  have hp : (sigParams.contains k || (callableKwargs.map Prod.fst).contains k)
      = true := by
    have h1 : sigParams.contains k = true := List.elem_eq_true_of_mem hsig
    rw [h1, Bool.true_or]
  unfold mergedCallKwargs dunion getCommonArgsMatchingSignature dget at *
  rw [lookup_append,
    lookup_filter_key
      (fun x => sigParams.contains x || (callableKwargs.map Prod.fst).contains x)
      commonKwargs k hp,
    hcommon]
  rfl

/-- C1 (witness): concrete instantiation of the amended claim, common value
present in both dictionaries. -/
theorem common_kwargs_override_witness :
    dget (mergedCallKwargs [("k")] [(("k"), 2)] [(("k"), 1)]) ("k") = some 1 :=
  common_kwargs_override [("k")] [(("k"), 2)] [(("k"), 1)] ("k") 1
    (by decide) (by decide)

/-- C6 (counterexample): the incompatible arities do not fail with a typed
`InitArityError`.  The empty descriptor (arity 0, incompatible with every
Unit kind) fails with an `IndexError` whose message names neither the
descriptor length nor the Unit, and a length-4 descriptor on a
constructible class fails with a builtin `ValueError`, not an
`InitArityError`. -/
theorem arity_error_counterexample :
    unpackDescriptor ("DummyPlugin") true 0
      = Except.error (PyError.indexError ("list index out of range")) ∧
    unpackDescriptor ("DummyPlugin") true 4
      = Except.error (PyError.valueError (arityMsg ("1, 2 or 3") ("DummyPlugin") 4)) ∧
    PyError.valueError (arityMsg ("1, 2 or 3") ("DummyPlugin") 4)
      ≠ PyError.initArityError (arityMsg ("1, 2 or 3") ("DummyPlugin") 4) := by
  refine ⟨rfl, rfl, by decide⟩

/-- C6 (amended): for every nonempty call descriptor whose tuple arity is
incompatible with the Unit kind (length ≥ 4 for a constructible type;
length ≥ 3 for a plain invocable), `plugin_executor` fails with a builtin
`ValueError` whose message names the descriptor length and the Unit, and
the Unit is not invoked; the empty descriptor fails earlier, with an
`IndexError` at `call[0]`. -/
theorem arity_error_value_error (unitName : String) (isType : Bool)
    (callLen : Nat)
    (hbad : (isType = true → 3 < callLen) ∧ (isType = false → 2 < callLen)) :
    unpackDescriptor unitName isType callLen
      = Except.error (PyError.valueError
          (arityMsg (if isType then ("1, 2 or 3") else ("1 or 2"))
            unitName callLen)) := by
  unfold unpackDescriptor
  cases isType with
  | true =>
    have h4 := hbad.1 rfl
    rw [if_neg (by omega), if_pos rfl, if_neg (by omega)]
    rfl
  | false =>
    have h3 := hbad.2 rfl
    rw [if_neg (by omega), if_neg (by simp), if_neg (by omega)]
    rfl

/-- C6 (witness): a length-4 descriptor on a constructible class fails with
the `ValueError` naming length 4 and the Unit, matching the repository test
`test_class_plugin_unexpected_tuple_unpack`. -/
theorem arity_error_value_error_witness :
    unpackDescriptor ("DummyPlugin") true 4
      = Except.error (PyError.valueError
          (arityMsg ("1, 2 or 3") ("DummyPlugin") 4)) := by
  have h := arity_error_value_error ("DummyPlugin") true 4
    ⟨fun _ => by omega, fun h => by simp at h⟩
  simpa using h

/-- C8: in the worker-pool scheduler's argument substitution, an argument
found as a key in the result map is replaced by the stored result; an
argument not found is passed through unchanged; list (and tuple) arguments
are substituted element-wise recursively; and a non-hashable argument
(a dict) is left as-is. -/
theorem insert_results_spec (m : PyArg → Option PyArg) :
    (∀ s v, m (.strA s) = some v → insertResults m (.strA s) = v) ∧
    (∀ s, m (.strA s) = none → insertResults m (.strA s) = .strA s) ∧
    (∀ n v, m (.intA n) = some v → insertResults m (.intA n) = v) ∧
    (∀ n, m (.intA n) = none → insertResults m (.intA n) = .intA n) ∧
    (∀ xs, insertResults m (.listA xs) = .listA (xs.map (insertResults m))) ∧
    (∀ d, insertResults m (.dictA d) = .dictA d) := by
  refine ⟨?_, ?_, ?_, ?_, ?_, ?_⟩
  · intro s v h; rw [insertResults, h]; rfl
  · intro s h; rw [insertResults, h]; rfl
  · intro n v h; rw [insertResults, h]; rfl
  · intro n h; rw [insertResults, h]; rfl
  · intro xs; rw [insertResults]; simp
  · intro d; rw [insertResults]

/-- A concrete result map: task key `t1` has produced the value 7. -/
def sampleResultMap : PyArg → Option PyArg :=
  fun a =>
    match a with
    | .strA s => if s == ("t1") then some (.intA 7) else none
    | _ => none

/-- C8 (witness): under `sampleResultMap`, the key `t1` is substituted by
the stored result and the unknown key `x` passes through unchanged. -/
theorem insert_results_spec_witness :
    insertResults sampleResultMap (.strA ("t1")) = .intA 7 ∧
    insertResults sampleResultMap (.strA ("x")) = .strA ("x") :=
  ⟨(insert_results_spec sampleResultMap).1 ("t1") (.intA 7) rfl,
   (insert_results_spec sampleResultMap).2.1 ("x") rfl⟩

/-- Helper: dict assignment at a fresh key appends the binding. -/
theorem odInsert_fresh (d : List (OutKey × OutVal)) (k : OutKey) (v : OutVal)
    (h : ∀ kv ∈ d, kv.1 ≠ k) : odInsert d k v = d ++ [(k, v)] := by
  have hc : d.any (fun kv => kv.1 == k) = false := by
    rw [List.any_eq_false]
    intro kv hkv
    simpa using h kv hkv
  unfold odInsert
  rw [hc]
  simp

/-- Helper: folding dict assignments of bindings with fresh, pairwise
distinct keys appends them in order. -/
theorem foldl_odInsert_append (l : List (OutKey × OutVal)) :
    ∀ d : List (OutKey × OutVal),
      (∀ kv ∈ l, ∀ kv' ∈ d, kv'.1 ≠ kv.1) → (l.map Prod.fst).Nodup →
      l.foldl (fun d' kv => odInsert d' kv.1 kv.2) d = d ++ l := by
  induction l with
  | nil => intro d _ _; simp
  | cons hd tl ih =>
    intro d hdisj hnodup
    have hhd : hd.1 ∉ tl.map Prod.fst :=
      (List.nodup_cons.mp (by simpa using hnodup)).1
    have hnodup' : (tl.map Prod.fst).Nodup :=
      (List.nodup_cons.mp (by simpa using hnodup)).2
    have hdisj' : ∀ kv ∈ tl, ∀ kv' ∈ d ++ [hd], kv'.1 ≠ kv.1 := by
      intro kv hkv kv' hkv'
      rcases List.mem_append.mp hkv' with h' | h'
      · exact hdisj kv (List.mem_cons_of_mem hd hkv) kv' h'
      · have heq : kv' = hd := by simpa using h'
        subst heq
        intro he
        exact hhd (by rw [he]; exact List.mem_map_of_mem Prod.fst hkv)
    rw [List.foldl_cons,
      odInsert_fresh d hd.1 hd.2
        (fun kv hkv => hdisj hd (List.mem_cons_self hd tl) kv hkv),
      ih (d ++ [hd]) hdisj' hnodup']
    simp

/-- Helper: with pairwise distinct terminal task values, the sink keys are
pairwise distinct. -/
theorem sink_keys_nodup (g : InGraph)
    (hdist : ((terminalEntries g).map (fun kv => kv.2)).Nodup) :
    (((terminalEntries g).map
      (fun kv => (OutKey.waiterSink kv.2, OutVal.sinkTask kv.1))).map
        Prod.fst).Nodup := by
  rw [List.map_map]
  have hinj : Function.Injective OutKey.waiterSink := by
    intro a b hab
    injection hab
  have := hdist.map hinj
  rw [List.map_map] at this
  exact this

/-- Helper: with pairwise distinct terminal task values, the `no_op_tasks`
dict comprehension produces exactly one sink per terminal task, in order. -/
theorem noOpTasks_eq (g : InGraph)
    (hdist : ((terminalEntries g).map (fun kv => kv.2)).Nodup) :
    noOpTasks g = (terminalEntries g).map
      (fun kv => (OutKey.waiterSink kv.2, OutVal.sinkTask kv.1)) := by
  unfold noOpTasks
  have hfold := foldl_odInsert_append
    ((terminalEntries g).map
      (fun kv => (OutKey.waiterSink kv.2, OutVal.sinkTask kv.1))) []
    (by intro kv _ kv' h'; simp at h') (sink_keys_nodup g hdist)
  rw [List.foldl_map] at hfold
  simpa using hfold

/-- Helper: the sink task values collected for the global waiter are the
terminal task values, in order. -/
theorem globalVs_eq (g : InGraph)
    (hdist : ((terminalEntries g).map (fun kv => kv.2)).Nodup) :
    globalVs g = (terminalEntries g).map (fun kv => kv.2) := by
  unfold globalVs
  rw [noOpTasks_eq g hdist]
  induction terminalEntries g with
  | nil => rfl
  | cons hd tl ih => simp only [List.map_cons, List.filterMap_cons] at ih ⊢; rw [ih]

/-- Helper: with pairwise distinct terminal task values, updating the graph
with the sinks appends them. -/
theorem dummySinkUpdate_eq (g : InGraph)
    (hdist : ((terminalEntries g).map (fun kv => kv.2)).Nodup) :
    dummySinkUpdate g
      = g.map (fun kv => (OutKey.base kv.1, OutVal.orig kv.2))
        ++ (terminalEntries g).map
            (fun kv => (OutKey.waiterSink kv.2, OutVal.sinkTask kv.1)) := by
  unfold dummySinkUpdate
  rw [noOpTasks_eq g hdist]
  refine foldl_odInsert_append _ _ ?_ (sink_keys_nodup g hdist)
  intro kv hkv kv' hkv'
  obtain ⟨a, -, rfl⟩ := List.mem_map.mp hkv
  obtain ⟨b, -, rfl⟩ := List.mem_map.mp hkv'
  simp

/-- Helper: a key referenced by no task value of the graph has no
successors. -/
theorem outSuccs_eq_nil_of (out : List (OutKey × OutVal)) (k : OutKey)
    (h : ∀ kv ∈ out, (outDeps kv.2).contains k = false) :
    outSuccs out k = [] := by
  unfold outSuccs
  have hf : out.filter (fun kv => (outDeps kv.2).contains k) = [] := by
    rw [List.filter_eq_nil_iff]
    intro kv hkv
    rw [Bool.not_eq_true]
    exact h kv hkv
  rw [hf, List.map_nil]

/-- Helper: a key referenced by some task value of the graph has a
successor. -/
theorem outSuccs_ne_nil_of (out : List (OutKey × OutVal)) (k : OutKey)
    (kv : OutKey × OutVal) (hmem : kv ∈ out)
    (hdep : (outDeps kv.2).contains k = true) : outSuccs out k ≠ [] := by
  unfold outSuccs
  intro hnil
  rw [List.map_eq_nil_iff] at hnil
  have hnot := List.filter_eq_nil_iff.mp hnil kv hmem
  rw [Bool.not_eq_true] at hnot
  rw [hnot] at hdep
  exact Bool.false_ne_true hdep

/-- Helper: a list none of whose members equals `a` does not contain `a`. -/
theorem contains_eq_false_of (l : List OutKey) (a : OutKey)
    (h : ∀ x ∈ l, x ≠ a) : l.contains a = false := by
  cases hc : l.contains a with
  | false => rfl
  | true => exact absurd rfl (h a (List.mem_of_elem_eq_true hc))

/-- Helper: every original graph key has a successor in the output graph —
terminal tasks are consumed by their sink, non-terminal tasks by some
original successor. -/
theorem base_key_has_successor (g : InGraph) (out : List (OutKey × OutVal))
    (hbase : ∀ kv ∈ g, (OutKey.base kv.1, OutVal.orig kv.2) ∈ out)
    (hsinks : ∀ kv ∈ terminalEntries g,
      (OutKey.waiterSink kv.2, OutVal.sinkTask kv.1) ∈ out)
    (a : Nat × InTask) (ha : a ∈ g) :
    outSuccs out (OutKey.base a.1) ≠ [] := by
  by_cases hterm : (inSuccs g a.1).isEmpty = true
  · have haT : a ∈ terminalEntries g :=
      List.mem_filter.mpr ⟨ha, by simpa using hterm⟩
    refine outSuccs_ne_nil_of out _ _ (hsinks a haT) ?_
    exact List.elem_eq_true_of_mem (by simp [outDeps])
  · have hne : inSuccs g a.1 ≠ [] := by
      intro h0
      rw [h0] at hterm
      exact hterm rfl
    obtain ⟨x, hx⟩ := List.exists_mem_of_ne_nil _ hne
    unfold inSuccs at hx
    obtain ⟨u, hu, -⟩ := List.mem_map.mp hx
    have hu' := List.mem_filter.mp hu
    refine outSuccs_ne_nil_of out _ _ (hbase u hu'.1) ?_
    apply List.elem_eq_true_of_mem
    show OutKey.base a.1 ∈ outDeps (OutVal.orig u.2)
    unfold outDeps
    exact List.mem_map_of_mem _ (List.mem_of_elem_eq_true (by simpa using hu'.2))

/-- Helper: reduction of `add_dummy_tasks` when exactly one sink exists. -/
theorem addDummyTasks_single (g : InGraph) (kv : OutKey × OutVal)
    (hself : hasSelfRef g = false) (h1 : noOpTasks g = [kv]) :
    addDummyTasks g = Except.ok (dummySinkUpdate g, kv.1) := by
  unfold addDummyTasks
  rw [if_neg (by simp [hself]), h1]

/-- Helper: reduction of `add_dummy_tasks` when there are two or more
sinks. -/
theorem addDummyTasks_multi (g : InGraph) (x y : OutKey × OutVal)
    (rest : List (OutKey × OutVal))
    (hself : hasSelfRef g = false) (h1 : noOpTasks g = x :: y :: rest) :
    addDummyTasks g
      = Except.ok (odInsert (dummySinkUpdate g)
          (OutKey.waiterGlobal (globalVs g)) (OutVal.globalTask (globalVs g)),
        OutKey.waiterGlobal (globalVs g)) := by
  unfold addDummyTasks
  rw [if_neg (by simp [hself]), h1]

/-- C7 (amended): for every task plan that has at least one task without a
successor, whose terminal task values are pairwise distinct (the sink keys
derive from tokenized task values) and which has no self-references,
`add_dummy_tasks` adds exactly one no-op sink consuming the output of each
task without a successor, adds one additional global no-op over all
per-branch sinks exactly when there is more than one such sink, and the
returned designated target is the single key of the returned graph with no
successor. -/
theorem add_dummy_tasks_spec (g : InGraph)
    (hterm : terminalEntries g ≠ [])
    (hdist : ((terminalEntries g).map (fun kv => kv.2)).Nodup)
    (hself : hasSelfRef g = false) :
    ∃ out target, addDummyTasks g = Except.ok (out, target) ∧
      noOpTasks g = (terminalEntries g).map
        (fun kv => (OutKey.waiterSink kv.2, OutVal.sinkTask kv.1)) ∧
      ((∃ vs, OutKey.waiterGlobal vs ∈ out.map Prod.fst) ↔
        2 ≤ (terminalEntries g).length) ∧
      target ∈ out.map Prod.fst ∧
      outSuccs out target = [] ∧
      ∀ k ∈ out.map Prod.fst, k ≠ target → outSuccs out k ≠ [] := by
  have hS := noOpTasks_eq g hdist
  have hupd := dummySinkUpdate_eq g hdist
  obtain ⟨kv0, T', hTe⟩ : ∃ kv0 T', terminalEntries g = kv0 :: T' := by
    cases h0 : terminalEntries g with
    | nil => exact absurd h0 hterm
    | cons a b => exact ⟨a, b, rfl⟩
  cases T' with
  | nil =>
    refine ⟨g.map (fun kv => (OutKey.base kv.1, OutVal.orig kv.2))
        ++ [(OutKey.waiterSink kv0.2, OutVal.sinkTask kv0.1)],
      OutKey.waiterSink kv0.2, ?_, hS, ?_, ?_, ?_, ?_⟩
    · have h1 : noOpTasks g
          = [(OutKey.waiterSink kv0.2, OutVal.sinkTask kv0.1)] := by
        rw [hS, hTe]
        rfl
      rw [addDummyTasks_single g _ hself h1, hupd, hTe]
      rfl
    · constructor
      · rintro ⟨vs, hvs1⟩
        rw [List.map_append] at hvs1
        rcases List.mem_append.mp hvs1 with h' | h'
        · rw [List.map_map] at h'
          obtain ⟨a, -, hEq⟩ := List.mem_map.mp h'
          exact absurd hEq (by simp)
        · simp at h'
      · intro h2
        rw [hTe] at h2
        simp at h2
    · rw [List.map_append]
      exact List.mem_append.mpr (Or.inr (by simp))
    · refine outSuccs_eq_nil_of _ _ ?_
      intro kv hkv
      rcases List.mem_append.mp hkv with h' | h'
      · obtain ⟨a, -, rfl⟩ := List.mem_map.mp h'
        refine contains_eq_false_of _ _ ?_
        intro x hx
        obtain ⟨b, -, rfl⟩ := List.mem_map.mp hx
        simp
      · have heq : kv = (OutKey.waiterSink kv0.2, OutVal.sinkTask kv0.1) := by
          simpa using h'
        subst heq
        refine contains_eq_false_of _ _ ?_
        intro x hx
        have hxe : x = OutKey.base kv0.1 := by simpa [outDeps] using hx
        subst hxe
        simp
    · intro k hk hkne
      rw [List.map_append] at hk
      rcases List.mem_append.mp hk with h' | h'
      · rw [List.map_map] at h'
        obtain ⟨a, ha, hEq⟩ := List.mem_map.mp h'
        rw [← hEq]
        refine base_key_has_successor g _ ?_ ?_ a ha
        · intro kv hkv
          exact List.mem_append.mpr (Or.inl (List.mem_map_of_mem _ hkv))
        · intro kv hkv
          rw [hTe] at hkv
          have h3 : kv = kv0 := by simpa using hkv
          subst h3
          exact List.mem_append.mpr (Or.inr (by simp))
      · exact absurd (by simpa using h') hkne
  | cons kv1 T2 =>
    have hvs := globalVs_eq g hdist
    refine ⟨(g.map (fun kv => (OutKey.base kv.1, OutVal.orig kv.2))
        ++ (terminalEntries g).map
            (fun kv => (OutKey.waiterSink kv.2, OutVal.sinkTask kv.1)))
        ++ [(OutKey.waiterGlobal ((terminalEntries g).map (fun kv => kv.2)),
            OutVal.globalTask ((terminalEntries g).map (fun kv => kv.2)))],
      OutKey.waiterGlobal ((terminalEntries g).map (fun kv => kv.2)),
      ?_, hS, ?_, ?_, ?_, ?_⟩
    · have h1 : noOpTasks g
          = (OutKey.waiterSink kv0.2, OutVal.sinkTask kv0.1)
            :: (OutKey.waiterSink kv1.2, OutVal.sinkTask kv1.1)
            :: T2.map (fun kv => (OutKey.waiterSink kv.2, OutVal.sinkTask kv.1)) := by
        rw [hS, hTe]
        rfl
      have hfresh : ∀ kv ∈ dummySinkUpdate g,
          kv.1 ≠ OutKey.waiterGlobal (globalVs g) := by
        intro kv hkv
        rw [hupd] at hkv
        rcases List.mem_append.mp hkv with h' | h'
        · obtain ⟨a, -, rfl⟩ := List.mem_map.mp h'
          simp
        · obtain ⟨a, -, rfl⟩ := List.mem_map.mp h'
          simp
      rw [addDummyTasks_multi g _ _ _ hself h1,
        odInsert_fresh _ _ _ hfresh, hupd, hvs]
    · constructor
      · intro h2
        rw [hTe]
        simp only [List.length_cons]
        omega
      · intro h2
        refine ⟨(terminalEntries g).map (fun kv => kv.2), ?_⟩
        rw [List.map_append]
        exact List.mem_append.mpr (Or.inr (by simp))
    · rw [List.map_append]
      exact List.mem_append.mpr (Or.inr (by simp))
    · refine outSuccs_eq_nil_of _ _ ?_
      intro kv hkv
      rcases List.mem_append.mp hkv with h' | h'
      · rcases List.mem_append.mp h' with h2 | h2
        · obtain ⟨a, -, rfl⟩ := List.mem_map.mp h2
          refine contains_eq_false_of _ _ ?_
          intro x hx
          obtain ⟨b, -, rfl⟩ := List.mem_map.mp hx
          simp
        · obtain ⟨a, -, rfl⟩ := List.mem_map.mp h2
          refine contains_eq_false_of _ _ ?_
          intro x hx
          have hxe : x = OutKey.base a.1 := by simpa [outDeps] using hx
          subst hxe
          simp
      · have heq : kv = (OutKey.waiterGlobal
            ((terminalEntries g).map (fun kv => kv.2)),
          OutVal.globalTask ((terminalEntries g).map (fun kv => kv.2))) := by
          simpa using h'
        subst heq
        refine contains_eq_false_of _ _ ?_
        intro x hx
        obtain ⟨b, -, rfl⟩ := List.mem_map.mp hx
        simp
    · intro k hk hkne
      rw [List.map_append, List.map_append] at hk
      rcases List.mem_append.mp hk with h' | h'
      · rcases List.mem_append.mp h' with h2 | h2
        · rw [List.map_map] at h2
          obtain ⟨a, ha, hEq⟩ := List.mem_map.mp h2
          rw [← hEq]
          refine base_key_has_successor g _ ?_ ?_ a ha
          · intro kv hkv
            exact List.mem_append.mpr (Or.inl (List.mem_append.mpr
              (Or.inl (List.mem_map_of_mem _ hkv))))
          · intro kv hkv
            exact List.mem_append.mpr (Or.inl (List.mem_append.mpr
              (Or.inr (List.mem_map_of_mem _ hkv))))
        · rw [List.map_map] at h2
          obtain ⟨a, ha, hEq⟩ := List.mem_map.mp h2
          rw [← hEq]
          refine outSuccs_ne_nil_of _ _
            (OutKey.waiterGlobal ((terminalEntries g).map (fun kv => kv.2)),
             OutVal.globalTask ((terminalEntries g).map (fun kv => kv.2)))
            (List.mem_append.mpr (Or.inr (by simp))) ?_
          apply List.elem_eq_true_of_mem
          exact List.mem_map_of_mem _ (List.mem_map_of_mem _ ha)
      · exact absurd (by simpa using h') hkne

def sampleFanGraph : InGraph := [(0, ⟨10, []⟩), (1, ⟨11, []⟩)]

/-- C7 (witness): on a plan with two distinct terminal tasks, the amended
dummy-sink-injection claim holds concretely. -/
theorem add_dummy_tasks_spec_witness :
    ∃ out target, addDummyTasks sampleFanGraph = Except.ok (out, target) ∧
      noOpTasks sampleFanGraph = (terminalEntries sampleFanGraph).map
        (fun kv => (OutKey.waiterSink kv.2, OutVal.sinkTask kv.1)) ∧
      ((∃ vs, OutKey.waiterGlobal vs ∈ out.map Prod.fst) ↔
        2 ≤ (terminalEntries sampleFanGraph).length) ∧
      target ∈ out.map Prod.fst ∧
      outSuccs out target = [] ∧
      ∀ k ∈ out.map Prod.fst, k ≠ target → outSuccs out k ≠ [] :=
  add_dummy_tasks_spec sampleFanGraph (by decide) (by decide) (by decide)

/-- C9 (counterexample): printing the SKIP sentinel yields the upper-cased
class name `_SKIPEVENT`, not `SKIP_EVENT` as the claim states (and
`_IGNOREEVENT`, not `IGNORE_EVENT`). -/
theorem event_repr_counterexample :
    eventRepr skipClassName = ("_SKIPEVENT") ∧
    eventRepr skipClassName ≠ ("SKIP_EVENT") ∧
    eventRepr ignoreClassName = ("_IGNOREEVENT") ∧
    eventRepr ignoreClassName ≠ ("IGNORE_EVENT") := by
  refine ⟨by decide, by decide, by decide, by decide⟩

/-- C9 (amended): printing the SKIP sentinel yields `_SKIPEVENT` and printing
the IGNORE sentinel yields `_IGNOREEVENT` (the upper-cased class names). -/
theorem event_repr_values :
    eventRepr skipClassName = ("_SKIPEVENT") ∧
    eventRepr ignoreClassName = ("_IGNOREEVENT") :=
  ⟨by decide, by decide⟩

/-- C5: a sentinel instance registered in the process-wide singleton registry
(as `SKIP_EVENT` and `IGNORE_EVENT` are, from module import) survives a
pickle round trip as the identical object, with the process state unchanged. -/
theorem pickle_roundtrip_identity (s : ProcState) (obj : PyObj)
    (hreg : s.instances.lookup obj.cls = some obj) :
    pickleLoad (pickleReduce obj) s = (obj, s) := by
  unfold pickleLoad pickleReduce singletonCall
  rw [hreg]

/-- C5 (witness): in a process that has imported the module, both the SKIP
and the IGNORE singleton round-trip to themselves. -/
theorem pickle_roundtrip_identity_witness :
    pickleLoad (pickleReduce (skipSingleton freshProcess)) freshProcess
      = (skipSingleton freshProcess, freshProcess) ∧
    pickleLoad (pickleReduce (ignoreSingleton freshProcess)) freshProcess
      = (ignoreSingleton freshProcess, freshProcess) :=
  ⟨pickle_roundtrip_identity freshProcess (skipSingleton freshProcess) (by decide),
   pickle_roundtrip_identity freshProcess (ignoreSingleton freshProcess) (by decide)⟩

/-- C10: for every recognised scheduler name, constructing `ExecuteGraph`
with `dry_run = True` selects the dask single-threaded single-machine
scheduler, regardless of the requested name. -/
theorem dry_run_selects_single_threaded (name : String)
    (hrec : (SCHEDULERS.lookup name).isSome) :
    selectScheduler name true = .ok (SchedSpec.singleMachine ("single-threaded")) := by
  unfold selectScheduler
  rw [if_neg (by simp [Option.isNone_iff_eq_none] at hrec ⊢; exact hrec)]
  rfl

/-- C10 (witness): requesting the `multiprocessing` scheduler under dry-run
yields the dask single-threaded single-machine scheduler. -/
theorem dry_run_selects_single_threaded_witness :
    selectScheduler ("multiprocessing") true
      = .ok (SchedSpec.singleMachine ("single-threaded")) :=
  dry_run_selects_single_threaded ("multiprocessing") (by decide)

end Dagrunner
